import Mathlib

/-!
Verification of the ssm2txt converter (SISTEMA project file to text).

The definitions below are a shallow embedding of the Python sources under
src/ssm2txt/.  Pure helper functions become Lean functions; code that can
raise a Python exception (KeyError, ValueError, AttributeError) returns
Option or Except.  XML rows are association lists of string attributes.
-/

namespace Ssm2txt

/-- Whitespace characters stripped by Python str.strip and the int/float
constructors. -/
def pyWs (c : Char) : Bool :=
  c = ' ' || c = '\t' || c = '\n' || c = '\r' || c = '\x0b' || c = '\x0c'

/-- Model of Python str.strip with no argument: remove whitespace from both
ends of the string. -/
def pyStrip (s : String) : String :=
  ⟨(s.toList.dropWhile pyWs).reverse.dropWhile pyWs |>.reverse⟩

/-- Model of the Python slice s[-2:]: the last two characters, or the whole
string when it is shorter than two characters (slicing never raises). -/
def pyLastTwo (s : String) : String :=
  ⟨s.toList.drop (s.toList.length - 2)⟩

/-- Numeric value of a list of decimal digit characters. -/
def digitsToNat (l : List Char) : Nat :=
  l.foldl (fun n c => 10 * n + (c.toNat - 48)) 0

/-- Leading sign of a Python numeric literal: returns (negative?, rest). -/
def pySign : List Char → Bool × List Char
  | '-' :: r => (true, r)
  | '+' :: r => (false, r)
  | l => (false, l)

/-- Model of the Python int(str) constructor on decimal literals: surrounding
whitespace is ignored, an optional sign precedes a nonempty digit string;
anything else raises ValueError, modelled as none.  (Underscore digit
grouping, accepted by Python 3.6+, does not occur in SISTEMA data and is not
modelled.) -/
def pyInt (s : String) : Option Int :=
  let (neg, l) := pySign (pyStrip s).toList
  if l.isEmpty || !l.all (·.isDigit) then none
  else some (if neg then -(digitsToNat l : Int) else (digitsToNat l : Int))

/-- Mantissa of a Python float literal: digits with an optional fractional
part.  Returns (combined digits, fraction length), or none when malformed. -/
def pyFloatMantissa (l : List Char) : Option (List Char × Nat) :=
  let ip := l.takeWhile (·.isDigit)
  match l.drop ip.length with
  | [] => if ip.isEmpty then none else some (ip, 0)
  | '.' :: fp =>
      if !fp.all (·.isDigit) then none
      else if ip.isEmpty && fp.isEmpty then none
      else some (ip ++ fp, fp.length)
  | _ => none

/-- Exponent part of a Python float literal (the characters after e or E). -/
def pyFloatExp (l : List Char) : Option Int :=
  let (neg, d) := pySign l
  if d.isEmpty || !d.all (·.isDigit) then none
  else some (if neg then -(digitsToNat d : Int) else (digitsToNat d : Int))

/-- Model of the Python float(str) constructor on decimal literals: optional
surrounding whitespace and sign, digits with optional fractional part and
optional e/E exponent.  A malformed string raises ValueError, modelled as
none.  (The inf/nan spellings and underscore grouping do not occur in
SISTEMA attribute values and are not modelled.) -/
def pyFloat (s : String) : Option Rat := do
  let (neg, l) := pySign (pyStrip s).toList
  let mantPart := l.takeWhile (fun c => c ≠ 'e' ∧ c ≠ 'E')
  let (digits, fracLen) ← pyFloatMantissa mantPart
  let e ← match l.drop mantPart.length with
          | [] => some (0 : Int)
          | _ :: rest => pyFloatExp rest
  let num : Int :=
    if 0 ≤ e then (digitsToNat digits : Int) * (10 : Int) ^ e.toNat
    else (digitsToNat digits : Int)
  let den : Nat := if 0 ≤ e then 10 ^ fracLen else 10 ^ (fracLen + (-e).toNat)
  let mag : Rat := Rat.divInt num den
  pure (if neg then -mag else mag)

/-- Decode of one checklist token, from Tab.csv_to_int (base.py:379):
int(opt.strip()[-2:]). -/
def decodeTok (opt : String) : Option Int :=
  pyInt (pyLastTwo (pyStrip opt))

/-- Splitting of a character list at every comma; the empty list yields one
empty piece, like the Python str.split with an explicit separator. -/
def splitCommaChars : List Char → List (List Char)
  | [] => [[]]
  | c :: rest =>
    let r := splitCommaChars rest
    if c = ',' then [] :: r
    else
      match r with
      | h :: t => (c :: h) :: t
      | [] => [[c]]

/-- Model of the Python csv.split of a comma-separated value:
an empty source string yields a list containing one empty string. -/
def pySplitComma (s : String) : List String :=
  (splitCommaChars s.toList).map String.mk

/-- Decoding of all tokens of the comprehension in Tab.csv_to_int, left to
right, aborting at the first token whose int() conversion raises. -/
def decodeAll : List String → Option (List Int)
  | [] => some []
  | o :: os => do
    let v ← decodeTok o
    let rest ← decodeAll os
    pure (v :: rest)

/-- Embedding of Tab.csv_to_int (base.py:371-384): split the value on commas
and convert the last two characters of each stripped token to an integer.
The whole comprehension runs inside one try block, so the first token whose
int() conversion raises ValueError discards the entire list and the except
branch returns the empty list. -/
def csv_to_int (csv : String) : List Int :=
  match decodeAll (pySplitComma csv) with
  | some l => l
  | none => []

/-- Embedding of MTTFD.format_nop (mttfd.py:126-131): a negative number of
operations renders as the INF marker, otherwise the raw string is returned
unchanged.  float(raw) on a malformed string raises ValueError, modelled as
none. -/
def format_nop (raw : String) : Option String :=
  (pyFloat raw).map (fun v => if v < 0 then "INF" else raw)

/-- An XML row element: a flat set of named string attributes.  XML
attributes on one element have distinct names, and element.attrib[k] raises
KeyError when the attribute is absent, modelled by an association-list
lookup returning Option. -/
structure Row where
  attrs : List (String × String)
deriving DecidableEq

/-- Attribute access element.attrib[k]: the first binding of the name. -/
def lookupAttr (row : Row) (k : String) : Option String :=
  (row.attrs.find? (fun p => p.1 = k)).map (·.2)

/-- The node classes instantiated for table rows (one per Node subclass in
the source).  Channel has no tabs and Project has no parent attribute. -/
inductive NodeType
  | project
  | safetyFunction
  | subsystem
  | channel
  | block
  | element
deriving DecidableEq

/-- The parent_attr class attribute of each Node subclass (project.py,
sf.py, subsystem.py, channel.py, block.py, element.py).  Project defines no
parent_attr, so reading it raises AttributeError, which Node.parent turns
into parent None. -/
def parentAttr : NodeType → Option String
  | .project => none
  | .safetyFunction => some "projectopoid"
  | .subsystem => some "sfopoid"
  | .channel => some "componentopoid"
  | .block => some "parentopoid"
  | .element => some "parentopoid"

/-- SSM.tables (ssm2txt.__main__:45-52): mapping of table_name to the node
class instantiated for each row; tables without an entry are ignored. -/
def tablesMap : String → Option NodeType
  | "projectops" => some NodeType.project
  | "sfops" => some NodeType.safetyFunction
  | "componentops" => some NodeType.subsystem
  | "channelops" => some NodeType.channel
  | "blocops" => some NodeType.block
  | "elementops" => some NodeType.element
  | _ => none

/-- A table of the source document: its table_name attribute and its rows
in document order. -/
structure Table where
  table_name : String
  rows : List Row
deriving DecidableEq

/-- The source document: the tables in document order. -/
structure Document where
  tables : List Table
deriving DecidableEq

/-- The rows processed by SSM.read_tables, flattened in table/row order and
paired with the node class for their table; rows of tables absent from
SSM.tables are skipped. -/
def flattenDoc (doc : Document) : List (NodeType × Row) :=
  (doc.tables.map (fun t =>
    match tablesMap t.table_name with
    | some ty => t.rows.map (fun r => (ty, r))
    | none => [])).flatten

/-- A constructed Node object: its class, its row, and its ordered child
list (Node.children).  The parent attribute of the Python object is a
property recomputed from the oid mapping on each access, so it is not
stored here. -/
structure PNode where
  ty : NodeType
  row : Row
  children : List Nat
deriving DecidableEq

/-- Placeholder node used for out-of-range list access in statements. -/
def dfltNode : PNode := ⟨NodeType.project, ⟨[]⟩, []⟩

/-- Assembly state: the nodes constructed so far, identified by their
construction index, and the OID mapping (the nodes dict).  dict assignment
overwrites, modelled by prepending to the association list so that lookup
finds the most recent binding first. -/
structure AsmState where
  built : List PNode
  oidMap : List (String × Nat)
deriving DecidableEq

/-- Error outcomes of tree assembly and rendering; each corresponds to an
uncaught Python exception that terminates the run. -/
inductive AsmError
  /-- KeyError reading a parent-reference attribute that the row lacks. -/
  | missingAttr
  /-- KeyError in Node.parent: the parent OID is not in the nodes dict. -/
  | unresolvedParent
  /-- KeyError reading the oid attribute of a row. -/
  | missingOid
  /-- Failure locating the project row or its node (SSM.get_project). -/
  | notFound
  /-- An exception raised while generating content during the render pass
  (KeyError, ValueError, IndexError or AttributeError in path or field
  generation), which aborts the run before any output is written. -/
  | renderFailure
deriving DecidableEq

/-- Embedding of Node.__init__ (base.py:62-97) for one row: resolve the
parent by reading the parent-reference attribute and looking it up in the
in-progress OID mapping, append the new node to the parent's child list,
then record the node in the mapping under its own oid.  Each KeyError in
that sequence aborts the whole run. -/
def buildNode (st : AsmState) (ty : NodeType) (row : Row) :
    Except AsmError AsmState :=
  match parentAttr ty with
  | none =>
    match lookupAttr row "oid" with
    | none => .error .missingOid
    | some oid =>
        .ok ⟨st.built ++ [⟨ty, row, []⟩], (oid, st.built.length) :: st.oidMap⟩
  | some a =>
    match lookupAttr row a with
    | none => .error .missingAttr
    | some poid =>
      match List.lookup poid st.oidMap with
      | none => .error .unresolvedParent
      | some pidx =>
        let idx := st.built.length
        let built1 :=
          match st.built.get? pidx with
          | some pn => st.built.set pidx ⟨pn.ty, pn.row, pn.children ++ [idx]⟩
          | none => st.built
        match lookupAttr row "oid" with
        | none => .error .missingOid
        | some oid => .ok ⟨built1 ++ [⟨ty, row, []⟩], (oid, idx) :: st.oidMap⟩

/-- Sequential construction of nodes for a list of rows, as performed by
SSM.read_nodes table by table; the first exception aborts the run. -/
def assembleFrom (st : AsmState) : List (NodeType × Row) → Except AsmError AsmState
  | [] => .ok st
  | (ty, row) :: rest =>
    match buildNode st ty row with
    | .error e => .error e
    | .ok st' => assembleFrom st' rest

/-- Embedding of SSM.read_tables (ssm2txt.__main__:65-85): construct one
node per row of every configured table, in table/row order, starting from
an empty nodes mapping. -/
def assemble (rows : List (NodeType × Row)) : Except AsmError AsmState :=
  assembleFrom ⟨[], []⟩ rows

/-- Tree assembly for a whole document. -/
def readTables (doc : Document) : Except AsmError AsmState :=
  assemble (flattenDoc doc)

/-- The concrete Tab subclasses.  docTab is the shared Documentation tab of
doc.py used by subsystems, blocks and elements; project and safety-function
nodes have their own Documentation classes; the three MTTFD variants differ
only in their extra class attributes. -/
inductive TabKind
  | projectDoc
  | sfDoc
  | plr
  | docTab
  | pl
  | category
  | mttfdSB
  | mttfdBL
  | mttfdEL
  | dcavg
  | ccf
  | dc
deriving DecidableEq

/-- A field specification tuple (base.py:210-234): optional title, the
attribute or method name the value comes from, and the optional name of the
visibility member consulted by Tab.show_field. -/
structure FieldSpec where
  title : Option String
  attrib : String
  showName : Option String
deriving DecidableEq

/-- Field with a title and no visibility member. -/
def ft (t a : String) : FieldSpec := ⟨some t, a, none⟩

/-- Field with a title and a visibility member. -/
def fts (t a s : String) : FieldSpec := ⟨some t, a, some s⟩

/-- Untitled field with no visibility member. -/
def f0 (a : String) : FieldSpec := ⟨none, a, none⟩

/-- Untitled field with a visibility member. -/
def f0s (a s : String) : FieldSpec := ⟨none, a, some s⟩

/-- The fields class attribute of each Tab subclass, transcribed from
project.py, sf.py, doc.py, subsystem.py, mttfd.py and dc.py. -/
def tabFields : TabKind → List FieldSpec
  | .projectDoc =>
    [ft "Project name" "name", ft "Creation date" "createdate",
     ft "Home folder for standards" "standardsfolder",
     ft "Home folder for documents" "documentsfolder",
     ft "Project status" "status", ft "Project number" "number",
     ft "Project version" "version", ft "Authors" "author",
     ft "Project managers" "manager", ft "Inspectors" "tester",
     ft "Dangerous point/machine" "machinename",
     ft "Documentation" "documentation", ft "Document" "document"]
  | .sfDoc =>
    [ft "Name of safety function" "name",
     ft "Type of safety function" "sftype",
     ft "Triggering event" "triggerevent",
     ft "Reaction and Behaviour on power failure" "reaction",
     ft "Safe state" "safestate", ft "Operation mode" "opmode",
     ft "Demand rate" "requestfrequency", ft "Running-on time" "responsetime",
     ft "Priority" "priority", ft "Documentation" "documentation",
     ft "Document" "document"]
  | .plr =>
    [f0 "plrdet", ft "Required Performance Level" "plr",
     ft "Documentation" "plrdocumentation", ft "Document" "plrdocument",
     ft "Source" "plrstandard", ft "File" "plrstandardfile",
     ft "Severity of injury" "riskparams",
     ft "Frequency and/or exposure times to hazard" "riskparamf",
     ft "Possibility of avoiding hazard or limiting harm" "riskparamp",
     ft "Documentation" "plrgraphdocumentation",
     ft "Document" "plrgraphdocument"]
  | .docTab =>
    [f0 "name", ft "Reference designator" "equipmentid",
     ft "Inventory number" "inventoryno",
     ft "Device Manufacturer" "manufacturer",
     ft "Device Identifier" "deviceid", ft "Device group" "devicegroup",
     ft "Part number" "partno", ft "Revision" "revision",
     ft "Function" "functiontypes", ft "Technology" "technology",
     fts "Category" "cat" "show_cat", ft "Use case" "usecase",
     ft "Description of the use case" "usecasedocumentation",
     ft "Documentation" "description", ft "Document" "document"]
  | .pl =>
    [f0 "pldet", fts "Performance Level" "pl" "show_pl",
     fts "Safety Integrity Level" "sil" "show_sil",
     fts "PL/SIL linked to PFHD" "isplpfhbind" "show_common_direct",
     fts "PFHD" "pfh" "show_common_direct",
     f0s "plconditions" "show_plconditions",
     fts "Software suitable up to PL" "pldirectsoftware" "show_software",
     ft "Documentation" "pldocumentation",
     fts "Mission time" "missiontime" "show_common_direct"]
  | .category =>
    [ft "Category of subsystem" "cat",
     fts "Reduced test frequency" "reducedtestingrate" "show_reduced_test",
     fts "Requirements for the category" "catconditions" "show_requirements",
     ft "Documentation" "catdocumentation", ft "Source" "catstandard",
     ft "File" "catstandardfile"]
  | .mttfdSB => mttfdFieldList
  | .mttfdBL => mttfdFieldList
  | .mttfdEL => mttfdFieldList
  | .dcavg =>
    [f0 "dcavgdet", fts "Diagnostic coverage" "dcavg" "show_direct",
     fts "Documentation" "dcavgdocumentation" "show_direct"]
  | .ccf =>
    [f0 "ccfscoredet", f0s "list_measures" "show_measures",
     fts "Total points" "ccfscore" "show_direct",
     ft "Documentation" "ccfdocumentation", ft "Document" "ccfdocument"]
  | .dc =>
    [f0 "dcdet", ft "Diagnostic coverage" "dc",
     ft "Documentation" "dcdocumentation", f0 "dcmeasureopoid",
     ft "Documentation" "dcmeasuredocumentation"]
where
  /-- MTTFD.fields (mttfd.py:12-34), shared by the three MTTFD variants. -/
  mttfdFieldList : List FieldSpec :=
    [f0 "mttfddet", fts "MTTFD" "mttfd" "show_mttfd",
     fts "Fault exclusion" "fault_exclusion" "show_direct",
     fts "B10D" "b10d" "show_b10d", fts "B10" "b10" "show_b10",
     fts "RDF" "rdfb10" "show_b10", fts "nop" "nop" "show_nop",
     fts "d_op" "nopday" "show_nop", fts "h_op" "nophour" "show_nop",
     fts "t_cycle" "nopcycle" "show_nop",
     fts "Lambda" "lambda" "show_lambda", fts "MTTF" "mttf" "show_mttf",
     fts "MTBF" "mtbf" "show_mtbf", fts "RDF" "rdfmttf" "show_rdf_mttf",
     fts "Documentation" "mttfddocumentation" "show_doc",
     ft "Mission time" "missiontime"]

/-- Class members shared by every Tab through Base and Tab (base.py):
instance attributes, properties, methods and class-level tables.  Used to
model hasattr in Tab.show_field. -/
def baseTabMembers : List String :=
  ["element", "nodes", "doc", "oid", "node", "field_names", "Field",
   "BORDER_LEFT", "BORDER_CORNER", "BORDER_BOTTOM", "pl_other", "parent",
   "show_field", "get_field_content", "field_value", "format_pl",
   "int_to_bool", "csv_to_int", "percent", "format_cat", "fields"]

/-- Members each Tab subclass adds on top of the shared ones, transcribed
from the class bodies in the source files. -/
def extraTabMembers : TabKind → List String
  | .projectDoc => ["title"]
  | .sfDoc => []
  | .plr =>
    ["det_selections", "risk_params", "format_plrdet", "format_plr",
     "format_riskparams", "format_riskparamf", "format_riskparamp"]
  | .docTab =>
    ["show_cat", "format_name", "format_functiontypes", "format_technology"]
  | .pl =>
    ["methods", "conditions", "show_pl", "show_sil", "show_common_direct",
     "show_plconditions", "show_software", "format_pldet",
     "format_isplpfhbind", "format_pldirectsoftware", "format_plconditions",
     "pl", "sil", "pfhd_linked"]
  | .category =>
    ["requirements", "req_show", "show", "show_requirements",
     "show_reduced_test", "format_reducedtestingrate", "format_catconditions"]
  | .mttfdSB => "child_type" :: "show" :: mttfdMembers
  | .mttfdBL => "child_type" :: mttfdMembers
  | .mttfdEL => "child_type" :: "show" :: mttfdMembers
  | .dcavg => ["det_methods", "show", "show_direct", "format_dcavgdet"]
  | .ccf =>
    ["detect", "show", "show_measures", "show_direct", "format_ccfscoredet",
     "list_measures", "get_measures_elements"]
  | .dc =>
    ["methods", "format_dcdet", "format_dcmeasureopoid",
     "get_measure_element", "measures_dc", "insufficient_pl", "format_dc"]
where
  /-- Members of the base MTTFD tab class (mttfd.py). -/
  mttfdMembers : List String :=
    ["det_methods", "determine_with_b10", "determine_with_mttf",
     "show_mttfd", "show_direct", "show_b10", "show_b10d", "show_nop",
     "show_rdf_mttf", "show_lambda", "show_mttf", "show_mtbf", "show_doc",
     "format_mttfddet", "format_rdfb10", "format_rdfmttf", "format_rdf",
     "fault_exclusion", "format_nop"]

/-- Model of hasattr(self, name) on a Tab instance: whether the name is an
attribute of the instance or its class.  The names reachable from field
specifications never denote properties whose getter raises, so membership
in the class member lists is faithful there. -/
def tabHasattr (k : TabKind) (s : String) : Bool :=
  s ∈ baseTabMembers || s ∈ extraTabMembers k

/-- Model of getattr(self, field.show) followed by the truthiness test in
Tab.show_field (base.py:303-308).  The source assigns the result of getattr
to show WITHOUT calling it: for the plain methods show_pl, show_mttfd,
show_b10d and so on this produces a bound-method object, which is always
truthy, so the predicate body is never evaluated.  The one property used as
a field visibility member, Documentation.show_cat (doc.py:45-48), is
evaluated by getattr and returns the constant True.  Every other member a
field could name is a nonempty class attribute, also truthy.  Hence every
DEFINED member yields True here, and an undefined name raises
AttributeError, modelled as none. -/
def getattrShow (k : TabKind) (s : String) : Option Bool :=
  if tabHasattr k s then some true else none

/-- Embedding of Tab.show_field (base.py:283-308): the field is output when
its attrib names an existing row attribute or a class member, and the
truthiness test of the visibility member passes (defaulting to True when no
member is named).  Python evaluates the show lookup even when the existence
check already failed, so an undefined visibility name always raises. -/
def show_field (k : TabKind) (row : Row) (f : FieldSpec) : Option Bool :=
  let exists0 := (lookupAttr row f.attrib).isSome || tabHasattr k f.attrib
  match f.showName with
  | none => some exists0
  | some s => (getattrShow k s).map (fun sh => exists0 && sh)

/-- The field filtering loop of Tab.get_field_content (base.py:273): keep
the fields for which show_field holds, in declared order; a raised
AttributeError aborts the tab. -/
def shownFieldsAux (k : TabKind) (row : Row) :
    List FieldSpec → Option (List FieldSpec)
  | [] => some []
  | f :: fs => do
    let b ← show_field k row f
    let rest ← shownFieldsAux k row fs
    pure (if b then f :: rest else rest)

/-- The fields a tab actually renders for a given row. -/
def shownFields (k : TabKind) (row : Row) : Option (List FieldSpec) :=
  shownFieldsAux k row (tabFields k)

/-- The tabs class attribute of each Node subclass (project.py, sf.py,
subsystem.py, channel.py, block.py, element.py). -/
def nodeTabs : NodeType → List TabKind
  | .project => [.projectDoc]
  | .safetyFunction => [.sfDoc, .plr]
  | .subsystem => [.docTab, .pl, .category, .mttfdSB, .dcavg, .ccf]
  | .channel => []
  | .block => [.docTab, .mttfdBL, .dc]
  | .element => [.docTab, .mttfdEL]

/-- The tabs instantiated and rendered by Node.get_tab_content
(base.py:193-197): every class in the tabs list, with no consultation of
any tab-level show member, so the result does not depend on the row. -/
def getTabContentTabs (ty : NodeType) (_row : Row) : List TabKind :=
  nodeTabs ty

/-- Embedding of SSM.get_project (ssm2txt.__main__:87-93): the node of the
first row of the projectops table; any lookup failure terminates the run. -/
def getProject (doc : Document) (st : AsmState) : Option Nat := do
  let t ← doc.tables.find? (fun t => t.table_name = "projectops")
  let r ← t.rows.head?
  let oid ← lookupAttr r "oid"
  List.lookup oid st.oidMap

/-- Membership test of Python operator in for strings: needle occurs as a
contiguous substring of hay. -/
def pyInStr (needle hay : String) : Bool :=
  hay.toList.tails.any (fun t => needle.toList.isPrefixOf t)

/-- Modelled from the spec: the derived property mttfd_direct, referenced
by src/ssm2txt/mttfd.py, subsystem.py, channel.py and element.py but
defined in a revision of the node classes that is not under src/.  Per spec
section 3 ("whether MTTFD is entered directly") and the determination
mapping det_methods (detDirect means "Enter MTTFD value directly"), it is
whether the mttfddet attribute selects direct entry. -/
def mttfd_direct (row : Row) : Option Bool :=
  (lookupAttr row "mttfddet").map (· = "detDirect")

/-- Modelled from the spec: the derived property mttfd_fault_exclusion,
referenced by src/ssm2txt/mttfd.py and subsystem.py but defined in a
revision of the node classes that is not under src/.  Per spec sections 4.3
and 8, a negative MTTFD attribute value is the sentinel meaning "fault
exclusion claimed". -/
def mttfd_fault_exclusion (row : Row) : Option Bool :=
  ((lookupAttr row "mttfd").bind pyFloat).map (· < 0)

/-- Modelled from the spec: the derived property category of a subsystem
node ("a subsystem's category letter", spec section 3), referenced by
src/ssm2txt/subsystem.py and channel.py but defined outside src/; its
translation of the cat attribute follows Tab.format_cat (base.py:393-398):
the final character, with N meaning Unknown. -/
def categoryProp (row : Row) : Option String := do
  let raw ← lookupAttr row "cat"
  let c ← raw.toList.getLast?
  pure (if c = 'N' then "Unknown" else String.mk [c])

/-- Embedding of MTTFD.determine_with_b10 (mttfd.py:44-47). -/
def determine_with_b10 (row : Row) : Option Bool :=
  (lookupAttr row "mttfddet").map (· = "detB10D")

/-- Evaluation of the body of MTTFD.show_mttfd (mttfd.py:54-56):
mttfd_direct and not mttfd_fault_exclusion, with Python short-circuiting. -/
def show_mttfd_eval (row : Row) : Option Bool := do
  let d ← mttfd_direct row
  if d then (mttfd_fault_exclusion row).map (!·) else pure false

/-- Evaluation of the body of MTTFD.show_b10d (mttfd.py:67-70):
determine_with_b10 and calcb10ddet selecting direct B10D entry, with Python
short-circuiting. -/
def show_b10d_eval (row : Row) : Option Bool := do
  let b ← determine_with_b10 row
  if b then (lookupAttr row "calcb10ddet").map (· = "calcB10dDirect")
  else pure false

/-- Evaluation of the body of the fault_exclusion value method
(mttfd.py:118-124): str() of the fault exclusion state, the Python boolean
spellings True and False. -/
def fault_exclusion_value (row : Row) : Option String :=
  (mttfd_fault_exclusion row).map (fun b => if b then "True" else "False")

/-- Evaluation of the body of Category.show (subsystem.py:168-173): the tab
is meant to be hidden when the PL determination method contains SIL. -/
def category_show_eval (row : Row) : Option Bool :=
  (lookupAttr row "pldet").map (fun s => !pyInStr "SIL" s)

/-- Channel.categories (channel.py:21-28): the channel types present in
each subsystem category; an unlisted category raises KeyError. -/
def channelCategories : String → Option (List String)
  | "Unknown" => some []
  | "B" => some ["ch1"]
  | "1" => some ["ch1"]
  | "2" => some ["ch1", "chTest"]
  | "3" => some ["ch1", "ch2"]
  | "4" => some ["ch1", "ch2"]
  | _ => none

/-- Evaluation of the body of the Channel.show property (channel.py:37-51)
for the node at index i: the channel type must be among those of the parent
subsystem's category, and a test channel is excluded when the subsystem
uses MTTFD direct entry (the second conjunct is only evaluated for test
channels, as in the source).  The parent is resolved through the nodes
mapping exactly as Node.parent does. -/
def channel_show_eval (st : AsmState) (i : Nat) : Option Bool := do
  let node := st.built.getD i dfltNode
  let chType ← lookupAttr node.row "channeltype"
  let poid ← lookupAttr node.row "componentopoid"
  let pidx ← List.lookup poid st.oidMap
  let prow := (st.built.getD pidx dfltNode).row
  let pcat ← categoryProp prow
  let chans ← channelCategories pcat
  let inc := decide (chType ∈ chans)
  if chType = "chTest" then
    (mttfd_direct prow).map (fun md => inc && !md)
  else
    pure inc

/-- Embedding of Tab.int_to_bool (base.py:355-369): the integer value of
the named attribute, or of the given string when no such attribute exists;
a non-integer raises ValueError (none), and the result is compared with
zero. -/
def int_to_bool_conv (row : Row) (s : String) : Option Bool :=
  match lookupAttr row s with
  | some v => (pyInt v).map (0 < ·)
  | none => (pyInt s).map (0 < ·)

/-- Embedding of PL.pfhd_linked (subsystem.py:125-128). -/
def pfhd_linked (row : Row) : Option Bool :=
  int_to_bool_conv row "isplpfhbind"

/-- Raise behaviour of Tab.format_pl (base.py:338-353): the pl_other keys
plN and plU translate, any other value takes its last character, which
raises IndexError on the empty string.  The produced string is always
nonempty. -/
def formatPlOk (raw : String) : Option Unit :=
  if raw = "plN" ∨ raw = "plU" then some ()
  else if raw.toList.isEmpty then none else some ()

/-- Raise behaviour of the PL.pl value method (subsystem.py:101-108):
pfhd_linked selects the source attribute, which must exist; its value goes
through format_pl.  The field_value formatter lookup then applies the
inherited format_pl a second time to the result, which is a nonempty
string, so that application never raises. -/
def plMethodOk (row : Row) : Option Unit := do
  let b ← pfhd_linked row
  let raw ← lookupAttr row (if b then "pldirectbindcal" else "pldirectnobind")
  formatPlOk raw

/-- Raise behaviour of the PL.sil value method (subsystem.py:110-123):
pfhd_linked selects the source attribute, which must exist and be nonempty
(its last character is taken). -/
def silMethodOk (row : Row) : Option Unit := do
  let b ← pfhd_linked row
  let raw ← lookupAttr row (if b then "sildirectbindcal" else "sildirectnobind")
  if raw.toList.isEmpty then none else some ()

/-- Raise behaviour of Tab.percent (base.py:386-391): float() of the value
must parse; the arithmetic and str() never raise. -/
def percentOk (raw : String) : Option Unit :=
  (pyFloat raw).map (fun _ => ())

/-- Raise behaviour of the Tab.parent property (base.py:247-250): the oid
attribute must exist and be bound in the nodes mapping. -/
def tabParentOk (st : AsmState) (row : Row) : Option Unit := do
  let oid ← lookupAttr row "oid"
  let _ ← List.lookup oid st.oidMap
  pure ()

/-- All rows of the document in table/row order (the row axis of the XPath
queries of dc.py and subsystem.py). -/
def allDocRows (doc : Document) : List Row :=
  (doc.tables.map (·.rows)).flatten

/-- The rows of the ccfmeasureops tables whose componentopoid attribute
names the given OID (CCF.get_measures_elements, subsystem.py:323-330). -/
def ccfMeasures (doc : Document) (oid : String) : List Row :=
  (((doc.tables.filter (fun t => t.table_name = "ccfmeasureops")).map
    (·.rows)).flatten).filter (fun r => lookupAttr r "componentopoid" = some oid)

/-- Raise behaviour of CCF.list_measures (subsystem.py:306-321): the owning
node is resolved through Tab.parent and its oid read, then every matching
measure row must carry the heading, description and score attributes. -/
def listMeasuresOk (doc : Document) (st : AsmState) (row : Row) :
    Option Unit := do
  let oid ← lookupAttr row "oid"
  let _ ← List.lookup oid st.oidMap
  (ccfMeasures doc oid).foldlM (fun _ e => do
    let _ ← lookupAttr e "heading"
    let _ ← lookupAttr e "description"
    let _ ← lookupAttr e "score"
    pure ()) ()

/-- Raise behaviour of PL.format_plconditions (subsystem.py:85-99): the
checklist decodes (never raising), the parent node is resolved and its
pl_from_cat_simple property reads the pldet attribute, and every key at or
below the limit must be one of the condition keys 1 to 7. -/
def formatPlconditionsOk (st : AsmState) (row : Row) (raw : String) :
    Option Unit := do
  let keys := csv_to_int raw
  tabParentOk st row
  let pldet ← lookupAttr row "pldet"
  let limit : Int := if pldet = "detSubItemsSimple" then 7 else 4
  let filtered := keys.filter (· ≤ limit)
  if filtered.all (fun k => decide (1 ≤ k ∧ k ≤ 7)) then some () else none

/-- Raise behaviour of Tab.format_cat (base.py:393-398): the value's last
character is taken, raising IndexError on the empty string. -/
def formatCatOk (raw : String) : Option Unit :=
  if raw.toList.isEmpty then none else some ()

/-- Raise behaviour of Category.format_catconditions (subsystem.py:187-201):
the checklist decodes, the category property (spec-modelled, see
categoryProp) must evaluate, and every decoded key must be a key of the
req_show table; the subsequent requirements lookups use the same key set. -/
def formatCatconditionsOk (row : Row) (raw : String) : Option Unit := do
  let keys := csv_to_int raw
  let _ ← categoryProp row
  if keys.all (fun k => decide (k ∈ ([1, 2, 3, 4, 5, 6, 10] : List Int)))
  then some () else none

/-- Raise behaviour of DC.format_dcmeasureopoid (dc.py:49-70): the first
row of any table carrying the given oid must exist (find returning None
makes the attribute access raise), carry the heading, description and
insufficientpls attributes, and carry parseable dcmin, dcmax and dc values
for the percent fields.  insufficient_pl itself never raises: its except
IndexError catches the empty-token case and format_pl's KeyError is caught
inside format_pl. -/
def formatDcmeasureOk (doc : Document) (oid : String) : Option Unit := do
  let e ← (allDocRows doc).find? (fun r => lookupAttr r "oid" = some oid)
  let _ ← lookupAttr e "heading"
  let _ ← lookupAttr e "description"
  let dmin ← lookupAttr e "dcmin"
  percentOk dmin
  let dmax ← lookupAttr e "dcmax"
  percentOk dmax
  let dval ← lookupAttr e "dc"
  percentOk dval
  let _ ← lookupAttr e "insufficientpls"
  pure ()

/-- Membership gate for the formatter dictionaries: the raw value must be a
key of the translation table, else the lookup raises KeyError. -/
def keysOk (keys : List String) (raw : String) : Option Unit :=
  if raw ∈ keys then some () else none

/-- Raise behaviour of the format_<attrib> formatter that field_value
(base.py:327-334) applies to the raw value, per tab class and source name;
names with no formatter defined on the class use the raw value and cannot
raise.  Transcribed from the format_ methods of project.py, sf.py, doc.py,
subsystem.py, mttfd.py and dc.py plus the inherited format_cat. -/
def formatterOk (doc : Document) (st : AsmState) (k : TabKind) (row : Row)
    (attrib raw : String) : Option Unit :=
  match k, attrib with
  | .plr, "plrdet" => keysOk ["detMeasures", "detDirect"] raw
  | .plr, "plr" => formatPlOk raw
  | .plr, "riskparams" => keysOk ["0", "1"] raw
  | .plr, "riskparamf" => keysOk ["0", "1"] raw
  | .plr, "riskparamp" => keysOk ["0", "1"] raw
  | .docTab, "name" => tabParentOk st row
  | .docTab, "cat" => formatCatOk raw
  | .pl, "pldet" =>
      keysOk ["detDirect", "detSILDirect", "detSubItems",
        "detSubItemsSimple"] raw
  | .pl, "pl" => formatPlOk raw
  | .pl, "isplpfhbind" => (pfhd_linked row).map (fun _ => ())
  | .pl, "pldirectsoftware" => formatPlOk raw
  | .pl, "plconditions" => formatPlconditionsOk st row raw
  | .category, "cat" => formatCatOk raw
  | .category, "reducedtestingrate" =>
      (int_to_bool_conv row raw).map (fun _ => ())
  | .category, "catconditions" => formatCatconditionsOk row raw
  | .mttfdSB, "mttfddet" => keysOk mttfdDetKeys raw
  | .mttfdBL, "mttfddet" => keysOk mttfdDetKeys raw
  | .mttfdEL, "mttfddet" => keysOk mttfdDetKeys raw
  | .mttfdSB, "rdfb10" => percentOk raw
  | .mttfdBL, "rdfb10" => percentOk raw
  | .mttfdEL, "rdfb10" => percentOk raw
  | .mttfdSB, "rdfmttf" => percentOk raw
  | .mttfdBL, "rdfmttf" => percentOk raw
  | .mttfdEL, "rdfmttf" => percentOk raw
  | .mttfdSB, "nop" => (pyFloat raw).map (fun _ => ())
  | .mttfdBL, "nop" => (pyFloat raw).map (fun _ => ())
  | .mttfdEL, "nop" => (pyFloat raw).map (fun _ => ())
  | .dcavg, "dcavgdet" => keysOk ["detSubItems", "detDirect"] raw
  | .ccf, "ccfscoredet" => keysOk ["detMeasures", "detDirect"] raw
  | .dc, "dcdet" => keysOk ["detSubItems", "detDirect", "detMeasures"] raw
  | .dc, "dc" => percentOk raw
  | .dc, "dcmeasureopoid" => formatDcmeasureOk doc raw
  | _, _ => some ()
where
  /-- The keys of MTTFD.det_methods (mttfd.py:37-42); format then inserts
  child_type, which never raises. -/
  mttfdDetKeys : List String :=
    ["detSubItems", "detDirect", "detB10D", "detMTTF"]

/-- Raise behaviour of the zero-argument value methods that field_value
falls back to when the source names no row attribute: PL.pl, PL.sil,
MTTFD.fault_exclusion and CCF.list_measures are the only members the
declared field lists reach this way; fault_exclusion uses the spec-modelled
mttfd_fault_exclusion property and str() of its result (followed by no
formatter, as no format_ counterpart of these names exists, except
format_pl, whose second application to pl's nonempty result never raises).
Any other member is not a zero-argument value method and the call raises. -/
def methodValueOk (doc : Document) (st : AsmState) (k : TabKind) (row : Row)
    (attrib : String) : Option Unit :=
  match k, attrib with
  | .pl, "pl" => plMethodOk row
  | .pl, "sil" => silMethodOk row
  | .mttfdSB, "fault_exclusion" => (mttfd_fault_exclusion row).map (fun _ => ())
  | .mttfdBL, "fault_exclusion" => (mttfd_fault_exclusion row).map (fun _ => ())
  | .mttfdEL, "fault_exclusion" => (mttfd_fault_exclusion row).map (fun _ => ())
  | .ccf, "list_measures" => listMeasuresOk doc st row
  | _, _ => none

/-- Raise behaviour of Tab.field_value (base.py:310-336) for one field:
the raw value comes from the row attribute when present, else from the
named value method; a formatter counterpart is then applied when the class
defines one. -/
def fieldValueOk (doc : Document) (st : AsmState) (k : TabKind) (row : Row)
    (f : FieldSpec) : Option Unit :=
  match lookupAttr row f.attrib with
  | some raw => formatterOk doc st k row f.attrib raw
  | none => methodValueOk doc st k row f.attrib

/-- Value generation for the shown fields of a tab, in declared order; the
first raising field aborts the run. -/
def fieldsValuesOk (doc : Document) (st : AsmState) (k : TabKind) (row : Row) :
    List FieldSpec → Option Unit
  | [] => some ()
  | f :: fs => do
    fieldValueOk doc st k row f
    fieldsValuesOk doc st k row fs

/-- Raise behaviour of one tab's output (Tab.__str__ and
get_field_content, base.py:252-281): the title lines never raise, the
field list is filtered through show_field, then each shown field's value
is generated. -/
def tabContentOk (doc : Document) (st : AsmState) (k : TabKind) (i : Nat) :
    Option Unit := do
  let row := (st.built.getD i dfltNode).row
  let shown ← shownFields k row
  fieldsValuesOk doc st k row shown

/-- Content generation for a node's tab list, in order. -/
def tabsContentOk (doc : Document) (st : AsmState) (i : Nat) :
    List TabKind → Option Unit
  | [] => some ()
  | k :: ks => do
    tabContentOk doc st k i
    tabsContentOk doc st i ks

/-- Raise behaviour of the Node.parent property (base.py:70-83) for the
node at index i: a class without parent_attr yields parent None (the
AttributeError is caught); otherwise the attribute must exist and its OID
be bound in the nodes mapping. -/
def parentIdxM (st : AsmState) (i : Nat) : Option (Option Nat) :=
  let n := st.built.getD i dfltNode
  match parentAttr n.ty with
  | none => some none
  | some a => do
    let poid ← lookupAttr n.row a
    let p ← List.lookup poid st.oidMap
    pure (some p)

/-- Raise behaviour of Node.tree_title (base.py:113-140 and channel.py):
ref_id never raises; a channel's acronym and name read the channeltype
attribute and the names table, any other class reads the name attribute. -/
def treeTitleOk (st : AsmState) (i : Nat) : Option Unit :=
  let n := st.built.getD i dfltNode
  match n.ty with
  | .channel => do
    let chType ← lookupAttr n.row "channeltype"
    if chType = "ch1" ∨ chType = "ch2" ∨ chType = "chTest"
    then some () else none
  | _ => do
    let _ ← lookupAttr n.row "name"
    pure ()

/-- Raise behaviour of Node.get_path (base.py:99-111): the parent property
is evaluated, the parent's path is generated first, then the node's own
tree title.  The fuel bounds the ancestor walk; every use below supplies
fuel exceeding the number of nodes, enough for any acyclic parent chain. -/
def getPathOk (st : AsmState) : Nat → Nat → Option Unit
  | 0, _ => none
  | fuel + 1, i => do
    let p? ← parentIdxM st i
    match p? with
    | some p => do
      getPathOk st fuel p
      treeTitleOk st i
    | none => treeTitleOk st i

/-- Raise behaviour of Node.get_content (base.py:180-197): the project
tree title block (the full ancestor path) is generated first, then every
tab of the class in order. -/
def nodeContentOk (doc : Document) (st : AsmState) (i : Nat) : Option Unit := do
  getPathOk st (st.built.length + 1) i
  tabsContentOk doc st i (nodeTabs (st.built.getD i dfltNode).ty)

/-- Pre-order rendering of a worklist of nodes, mirroring Node.__str__
(base.py:162-178) with its error behaviour: a node with tabs generates its
own content first (any exception aborting the whole run), then its
children are always recursed into, with no consultation of any node-level
show member, then the remaining siblings.  The nested recursion of the
source is linearized by pushing the children in front of the rest of the
worklist, which preserves both the visit order and the error order.  The
result is the list of node indices whose own content appears in the
output.  The fuel bounds the number of visited nodes; every use below
supplies fuel exceeding the node count. -/
def renderManyOk (doc : Document) (st : AsmState) :
    Nat → List Nat → Option (List Nat)
  | _, [] => some []
  | 0, _ :: _ => none
  | fuel + 1, i :: rest => do
    let n := st.built.getD i dfltNode
    let own ← if (nodeTabs n.ty).isEmpty then some ([] : List Nat)
              else do
                nodeContentOk doc st i
                some [i]
    let rst ← renderManyOk doc st fuel (n.children ++ rest)
    some (own ++ rst)

/-- Embedding of the whole run (SSM.__init__ followed by SSM.write): parse
is assumed done, tables are read into nodes; only then is rendering
attempted from the project root.  The output is abstracted to the pre-order
list of rendered node indices, with every exception a tab, field or title
block can raise during content generation propagated; no output of any
kind exists when any stage failed. -/
def ssmRender (doc : Document) : Except AsmError (List Nat) :=
  match readTables doc with
  | .error e => .error e
  | .ok st =>
    match getProject doc st with
    | none => .error .notFound
    | some p =>
      match renderManyOk doc st (st.built.length + 1) [p] with
      | some l => .ok l
      | none => .error .renderFailure

/-- Row of an MTTFD tab whose determination method is direct entry while
the row also carries the full set of B10D/B10 and Lambda/MTTF/MTBF
attributes, as SISTEMA files do for every method. -/
def rowDirectEntry : Row :=
  ⟨[("oid", "m1"), ("mttfddet", "detDirect"), ("mttfd", "150"),
    ("b10d", "100000"), ("b10", "50000"), ("rdfb10", "0.5"),
    ("nop", "4000"), ("nopday", "220"), ("nophour", "16"),
    ("nopcycle", "30"), ("lambda", "1e-7"), ("mttf", "200"),
    ("mtbf", "250"), ("rdfmttf", "0.5"), ("mttfddocumentation", "d"),
    ("missiontime", "20"), ("calcb10ddet", "calcB10dB10"),
    ("calcmttfddet", "calcMTTFdLambda")]⟩

/-- The same MTTFD row with the mttfd attribute set to the fault-exclusion
sentinel -1. -/
def rowFaultExcl : Row :=
  ⟨[("oid", "m1"), ("mttfddet", "detDirect"), ("mttfd", "-1"),
    ("b10d", "100000"), ("b10", "50000"), ("rdfb10", "0.5"),
    ("nop", "4000"), ("nopday", "220"), ("nophour", "16"),
    ("nopcycle", "30"), ("lambda", "1e-7"), ("mttf", "200"),
    ("mtbf", "250"), ("rdfmttf", "0.5"), ("mttfddocumentation", "d"),
    ("missiontime", "20"), ("calcb10ddet", "calcB10dB10"),
    ("calcmttfddet", "calcMTTFdLambda")]⟩

/-- Subsystem row whose PL determination method is direct SIL entry. -/
def rowSilDirect : Row := ⟨[("oid", "s2"), ("pldet", "detSILDirect")]⟩

/-- Row bound to a DC tab that lacks the dc attribute, so the Diagnostic
coverage field names neither a row attribute nor a tab class member. -/
def rowNoDc : Row :=
  ⟨[("oid", "b2"), ("dcdet", "detDirect"), ("dcdocumentation", "x"),
    ("dcmeasureopoid", "o9"), ("dcmeasuredocumentation", "y")]⟩

/-- The Diagnostic coverage field of the DC tab. -/
def dcField : FieldSpec := ft "Diagnostic coverage" "dc"

/-- A document with one project, one safety function, one category-B
subsystem, one test channel in it and one block under the channel.  All
channel types are always present in SISTEMA XML; category B contains only
channel 1, so the test channel's show property is False here.  The rows
carry every attribute their rendered fields and value methods read, so
content generation raises nowhere on this document. -/
def docChannel : Document :=
  ⟨[⟨"projectops", [⟨[("oid", "p1"), ("name", "Demo")]⟩]⟩,
    ⟨"sfops", [⟨[("oid", "s1"), ("projectopoid", "p1"),
      ("name", "Stop")]⟩]⟩,
    ⟨"componentops", [⟨[("oid", "c1"), ("sfopoid", "s1"), ("name", "Sub"),
      ("cat", "catB"), ("pldet", "detSubItems"),
      ("mttfddet", "detSubItems"), ("mttfd", "100"),
      ("isplpfhbind", "0"), ("pldirectnobind", "plC"),
      ("sildirectnobind", "silN")]⟩]⟩,
    ⟨"channelops", [⟨[("oid", "h1"), ("componentopoid", "c1"),
      ("channeltype", "chTest")]⟩]⟩,
    ⟨"blocops", [⟨[("oid", "b1"), ("parentopoid", "h1"),
      ("name", "Blk"), ("mttfd", "100")]⟩]⟩]⟩

/-- The state assembled from docChannel; indices 0 to 4 are the project,
safety function, subsystem, channel and block. -/
def stChannel : AsmState :=
  match assemble (flattenDoc docChannel) with
  | .ok st => st
  | .error _ => ⟨[], []⟩

/-- A document whose single safety-function row names a parent OID that no
constructed node carries. -/
def docOrphan : Document :=
  ⟨[⟨"sfops", [⟨[("oid", "s1"), ("projectopoid", "p0")]⟩]⟩]⟩

/-- A well-formed document with a project row, a safety-function row under
it and a subsystem row under that, each parent row earlier in table/row
order. -/
def docSmall : Document :=
  ⟨[⟨"projectops", [⟨[("oid", "p1"), ("name", "Demo")]⟩]⟩,
    ⟨"sfops", [⟨[("oid", "s1"), ("projectopoid", "p1"),
      ("name", "Stop")]⟩]⟩,
    ⟨"componentops", [⟨[("oid", "c1"), ("sfopoid", "s1"),
      ("cat", "catB")]⟩]⟩]⟩

/-- Placeholder flattened entry for out-of-range access in statements. -/
def dfltEntry : NodeType × Row := (NodeType.project, ⟨[]⟩)

/-- The node class of a flattened row. -/
def tyOf (rs : List (NodeType × Row)) (i : Nat) : NodeType :=
  (rs.getD i dfltEntry).1

/-- The row element of a flattened row. -/
def rowOf (rs : List (NodeType × Row)) (i : Nat) : Row :=
  (rs.getD i dfltEntry).2

/-- The OID named by a flattened row's own oid attribute. -/
def oidOf (rs : List (NodeType × Row)) (i : Nat) : Option String :=
  lookupAttr (rowOf rs i) "oid"

/-- The OID a flattened row's parent-reference attribute names, none for a
row whose class has no parent attribute or whose row lacks it. -/
def prefOf (rs : List (NodeType × Row)) (i : Nat) : Option String :=
  match parentAttr (tyOf rs i) with
  | none => none
  | some a => lookupAttr (rowOf rs i) a

/-- The oid attribute value of a flattened row, with empty-string default;
rows considered below always carry an oid. -/
def oidV (rs : List (NodeType × Row)) (j : Nat) : String :=
  (oidOf rs j).getD ""

/-- The node of row j as it stands after the first k rows have been
processed: its child list collects, in encounter order, the rows among the
first k whose parent reference names row j's oid. -/
def nodeAt (rs : List (NodeType × Row)) (k j : Nat) : PNode :=
  ⟨tyOf rs j, rowOf rs j,
   (List.range k).filter (fun i => decide (prefOf rs i = oidOf rs j))⟩

/-- Closed form of the assembly state after the first k rows have been
processed. -/
def stAt (rs : List (NodeType × Row)) (k : Nat) : AsmState :=
  ⟨(List.range k).map (nodeAt rs k),
   ((List.range k).map (fun j => (oidV rs j, j))).reverse⟩

/-- Decoding a token list fails as soon as one token fails. -/
theorem decodeAll_eq_none {l : List String}
    (h : ∃ o ∈ l, decodeTok o = none) : decodeAll l = none := by
  induction l with
  | nil => simp at h
  | cons a t ih =>
    rcases h with ⟨o, ho, hn⟩
    rcases List.mem_cons.mp ho with rfl | hot
    · simp [decodeAll, hn]
    · cases ha : decodeTok a with
      | none => simp [decodeAll, ha]
      | some v => simp [decodeAll, ha, ih ⟨o, hot, hn⟩]

/-- Decoding a token list in which every token decodes produces the decoded
values in order. -/
theorem decodeAll_eq_some {l : List String}
    (h : ∀ o ∈ l, (decodeTok o).isSome) :
    decodeAll l = some (l.filterMap decodeTok) := by
  induction l with
  | nil => simp [decodeAll]
  | cons a t ih =>
    obtain ⟨v, hv⟩ := Option.isSome_iff_exists.mp (h a (List.mem_cons_self a t))
    rw [List.filterMap_cons, hv]
    simp [decodeAll, hv, ih (fun o ho => h o (List.mem_cons_of_mem a ho))]

/-- C8: the checklist decoder csv_to_int maps the empty string to the empty
list and the encoding "optA01, optB02" to the list 1, 2 in that order; in
general, when every comma-separated token decodes (integer formed by the
last two characters after stripping surrounding whitespace), the result is
exactly those integers in token order. -/
theorem c8_csv_roundtrip :
    csv_to_int "" = [] ∧ csv_to_int "optA01, optB02" = [1, 2] ∧
    ∀ csv, (∀ o ∈ pySplitComma csv, (decodeTok o).isSome) →
      csv_to_int csv = (pySplitComma csv).filterMap decodeTok := by
  refine ⟨by decide, by decide, fun csv h => ?_⟩
  unfold csv_to_int
  rw [decodeAll_eq_some h]

/-- Witness for C8 at the concrete encoding from the claim. -/
theorem c8_csv_roundtrip_witness :
    (∀ o ∈ pySplitComma "optA01, optB02", (decodeTok o).isSome) ∧
    csv_to_int "optA01, optB02"
      = (pySplitComma "optA01, optB02").filterMap decodeTok :=
  ⟨by decide, c8_csv_roundtrip.2.2 "optA01, optB02" (by decide)⟩

/-- C10: a single malformed token (its last two stripped characters do not
parse as an integer) makes csv_to_int discard the entire list and return
the empty list; the except branch swallows the ValueError, so no exception
escapes. -/
theorem c10_csv_malformed (csv : String)
    (h : ∃ o ∈ pySplitComma csv, decodeTok o = none) :
    csv_to_int csv = [] := by
  unfold csv_to_int
  rw [decodeAll_eq_none h]

/-- Witness for C10 on an input with one well-formed and one malformed
token. -/
theorem c10_csv_malformed_witness :
    (∃ o ∈ pySplitComma "optA01, bogus", decodeTok o = none) ∧
    csv_to_int "optA01, bogus" = [] :=
  ⟨by decide, c10_csv_malformed "optA01, bogus" (by decide)⟩

/-- C9: a number-of-operations value parsing to a negative number renders
as the fixed INF marker, and a non-negative value renders as the raw string
unchanged. -/
theorem c9_nop_sentinel (raw : String) (v : Rat) (h : pyFloat raw = some v) :
    (v < 0 → format_nop raw = some "INF") ∧
    (0 ≤ v → format_nop raw = some raw) := by
  constructor
  · intro hv
    simp [format_nop, h, hv]
  · intro hv
    simp [format_nop, h, not_lt.mpr hv]

/-- Witness for C9 at the sentinel -5 and a non-negative value. -/
theorem c9_nop_sentinel_witness :
    pyFloat "-5" = some (-5) ∧ format_nop "-5" = some "INF" ∧
    pyFloat "330000" = some 330000 ∧ format_nop "330000" = some "330000" :=
  ⟨by decide, (c9_nop_sentinel "-5" (-5) (by decide)).1 (by decide),
   by decide, (c9_nop_sentinel "330000" 330000 (by decide)).2 (by decide)⟩

/-- C2: the claimed visibility exclusivity fails on the code.  On a row
whose MTTFD determination method is direct entry, the predicate declared
for the B10D field evaluates to False, yet the rendered MTTFD tab shows
every declared field, B10D included: Tab.show_field (base.py:306) binds
show to getattr of the method object without calling it, and a bound
method is always truthy. -/
theorem c2_method_visibility_bug :
    lookupAttr rowDirectEntry "mttfddet" = some "detDirect" ∧
    show_b10d_eval rowDirectEntry = some false ∧
    shownFields TabKind.mttfdSB rowDirectEntry
      = some (tabFields TabKind.mttfdSB) := by decide

/-- C3: the claimed tab-level omission fails on the code.  For a subsystem
whose PL determination is direct SIL entry the Category.show predicate body
evaluates to False, yet Node.get_tab_content (base.py:193-197) renders
every tab in the class tabs list without consulting any show member, so the
Category tab is still emitted. -/
theorem c3_tab_show_ignored :
    category_show_eval rowSilDirect = some false ∧
    TabKind.category ∈ getTabContentTabs NodeType.subsystem rowSilDirect := by
  decide

/-- C4: the claimed node-level skipping fails on the code.  In docChannel
the test channel (index 3) has a False show property, since category B
subsystems contain only channel 1; Node.__str__ (base.py:162-178)
nevertheless recurses into every child, so the channel's block (index 4)
still appears in the rendered output.  The render embedding propagates
every exception content generation can raise, and on this
attribute-complete document the whole render pass completes, producing
content for the project, safety function, subsystem and block. -/
theorem c4_node_show_ignored :
    (assemble (flattenDoc docChannel)).toOption = some stChannel ∧
    (stChannel.built.getD 3 dfltNode).ty = NodeType.channel ∧
    (stChannel.built.getD 4 dfltNode).ty = NodeType.block ∧
    channel_show_eval stChannel 3 = some false ∧
    (ssmRender docChannel).toOption = some [0, 1, 2, 4] := by decide

/-- C7: the claimed sentinel handling fails on the code.  On a direct-entry
row whose mttfd attribute is -1, the fault-exclusion state is True and the
marker line value is the string True, and show_mttfd's body evaluates to
False; yet the rendered tab still shows every field, the MTTFD value and
the B10/Lambda sub-fields included, because the show methods are never
invoked (base.py:306 tests the truthiness of the bound method). -/
theorem c7_fault_exclusion_bug :
    mttfd_fault_exclusion rowFaultExcl = some true ∧
    show_mttfd_eval rowFaultExcl = some false ∧
    fault_exclusion_value rowFaultExcl = some "True" ∧
    shownFields TabKind.mttfdSB rowFaultExcl
      = some (tabFields TabKind.mttfdSB) := by decide

/-- Membership in a rendered field list means show_field held. -/
theorem mem_of_shownFieldsAux {k : TabKind} {row : Row} {fs : List FieldSpec}
    {l : List FieldSpec} {f : FieldSpec}
    (hl : shownFieldsAux k row fs = some l) (hf : f ∈ l) :
    show_field k row f = some true := by
  induction fs generalizing l with
  | nil =>
    simp [shownFieldsAux] at hl
    subst hl
    cases hf
  | cons g gs ih =>
    unfold shownFieldsAux at hl
    cases hg : show_field k row g with
    | none => rw [hg] at hl; simp at hl
    | some b =>
      rw [hg] at hl
      cases hr : shownFieldsAux k row gs with
      | none => rw [hr] at hl; simp at hl
      | some rest =>
        rw [hr] at hl
        simp at hl
        subst hl
        cases b with
        | false => exact ih hr hf
        | true =>
          rcases List.mem_cons.mp hf with rfl | hfr
          · exact hg
          · exact ih hr hfr

/-- Rendering a field list succeeds whenever every named visibility member
is defined on the tab class. -/
theorem shownFieldsAux_isSome {k : TabKind} {row : Row} {fs : List FieldSpec}
    (h : ∀ g ∈ fs, g.showName.all (fun s => tabHasattr k s)) :
    (shownFieldsAux k row fs).isSome := by
  induction fs with
  | nil => simp [shownFieldsAux]
  | cons g gs ih =>
    have hg : (show_field k row g).isSome := by
      unfold show_field
      cases hsn : g.showName with
      | none => simp
      | some s =>
        have := h g (List.mem_cons_self g gs)
        rw [hsn] at this
        simp only [Option.all_some] at this
        simp [getattrShow, this]
    obtain ⟨b, hb⟩ := Option.isSome_iff_exists.mp hg
    obtain ⟨rest, hrest⟩ := Option.isSome_iff_exists.mp
      (ih (fun g' hg' => h g' (List.mem_cons_of_mem g hg')))
    unfold shownFieldsAux
    rw [hb, hrest]
    simp

/-- C5 amended: a field whose source names neither an existing attribute of
the bound row nor a member of the tab class is silently omitted from the
rendered tab: its existence check in Tab.show_field fails, the remaining
fields render normally, and no error is raised. -/
theorem c5_missing_field_amended (k : TabKind) (row : Row) (f : FieldSpec)
    (hf : f ∈ tabFields k)
    (hattr : lookupAttr row f.attrib = none)
    (hmem : tabHasattr k f.attrib = false) :
    ∃ l, shownFields k row = some l ∧ f ∉ l := by
  have hdef : ∀ g ∈ tabFields k, g.showName.all (fun s => tabHasattr k s) := by
    cases k <;> decide
  obtain ⟨l, hl⟩ := Option.isSome_iff_exists.mp
    (@shownFieldsAux_isSome k row (tabFields k) hdef)
  refine ⟨l, hl, fun hmeml => ?_⟩
  have hshow := mem_of_shownFieldsAux hl hmeml
  unfold show_field at hshow
  cases hsn : f.showName with
  | none => simp [hsn, hattr, hmem] at hshow
  | some s =>
    rw [hsn] at hshow
    by_cases hh : tabHasattr k s
    · simp [getattrShow, hh, hattr, hmem] at hshow
    · simp [getattrShow, hh] at hshow

/-- C5 counterexample: the original claim asserts a loud failure, but on a
DC tab bound to a row without the dc attribute, rendering succeeds, silently
omitting the Diagnostic coverage field while all other fields render. -/
theorem c5_missing_field_counterexample :
    dcField ∈ tabFields TabKind.dc ∧
    shownFields TabKind.dc rowNoDc
      = some [f0 "dcdet", ft "Documentation" "dcdocumentation",
              f0 "dcmeasureopoid", ft "Documentation" "dcmeasuredocumentation"] := by
  decide

/-- Witness for the amended C5 at the DC tab and the row lacking dc. -/
theorem c5_missing_field_witness :
    dcField ∈ tabFields TabKind.dc ∧
    lookupAttr rowNoDc dcField.attrib = none ∧
    tabHasattr TabKind.dc dcField.attrib = false ∧
    ∃ l, shownFields TabKind.dc rowNoDc = some l ∧ dcField ∉ l :=
  ⟨by decide, by decide, by decide,
   c5_missing_field_amended TabKind.dc rowNoDc dcField
     (by decide) (by decide) (by decide)⟩

/-- The OID mapping after k+1 rows extends the one after k rows with the
binding for row k. -/
theorem stAt_oidMap_succ (rs : List (NodeType × Row)) (k : Nat) :
    (stAt rs (k + 1)).oidMap = (oidV rs k, k) :: (stAt rs k).oidMap := by
  simp [stAt, List.range_succ]

/-- Looking up a constructed row's OID in the mapping finds that row, given
that OIDs are pairwise distinct. -/
theorem lookup_stAt {rs : List (NodeType × Row)} {k j : Nat} {v : String}
    (hoid : ∀ i, i < rs.length → (oidOf rs i).isSome)
    (hdist : ∀ i, i < rs.length → ∀ i', i' < rs.length →
      oidOf rs i = oidOf rs i' → i = i')
    (hk : k ≤ rs.length) (hj : j < k) (hv : oidOf rs j = some v) :
    List.lookup v (stAt rs k).oidMap = some j := by
  induction k with
  | zero => omega
  | succ k ih =>
    rw [stAt_oidMap_succ]
    by_cases hjk : j = k
    · subst hjk
      have : oidV rs j = v := by simp [oidV, hv]
      simp [List.lookup, this]
    · have hjk' : j < k := by omega
      have hkn : k < rs.length := by omega
      have hne : (v == oidV rs k) = false := by
        apply beq_false_of_ne
        intro he
        obtain ⟨w, hw⟩ := Option.isSome_iff_exists.mp (hoid k hkn)
        have hkv : oidOf rs k = some v := by
          rw [hw]
          simp [oidV, hw] at he
          rw [he]
        exact hjk (hdist k hkn j (by omega) (hkv.trans hv.symm)).symm
      simp [List.lookup, hne]
      exact ih (by omega) hjk'

/-- No row among the first k+1 references row k's oid as its parent when
parent references point strictly backwards. -/
theorem pref_ne_oid {rs : List (NodeType × Row)}
    (hoid : ∀ i, i < rs.length → (oidOf rs i).isSome)
    (hdist : ∀ i, i < rs.length → ∀ i', i' < rs.length →
      oidOf rs i = oidOf rs i' → i = i')
    (hpar : ∀ i, i < rs.length → parentAttr (tyOf rs i) ≠ none →
      ∃ j, j < i ∧ oidOf rs j = prefOf rs i)
    {k i : Nat} (hk : k < rs.length) (hik : i ≤ k) :
    ¬ prefOf rs i = oidOf rs k := by
  intro he
  obtain ⟨w, hw⟩ := Option.isSome_iff_exists.mp (hoid k hk)
  have hin : i < rs.length := by omega
  have hpa : parentAttr (tyOf rs i) ≠ none := by
    intro hnone
    rw [prefOf, hnone] at he
    rw [hw] at he
    cases he
  obtain ⟨j, hj, hoidj⟩ := hpar i hin hpa
  have : j = k := hdist j (by omega) k hk (hoidj.trans he)
  omega

/-- Filtering a range extended by one element. -/
theorem filter_range_succ (p : Nat → Bool) (k : Nat) :
    (List.range (k + 1)).filter p
      = (List.range k).filter p ++ if p k then [k] else [] := by
  rw [List.range_succ, List.filter_append]
  cases hp : p k <;> simp [List.filter, hp]

/-- A node's view is unchanged by a new row that does not reference it. -/
theorem nodeAt_succ {rs : List (NodeType × Row)} {k j : Nat}
    (h : ¬ prefOf rs k = oidOf rs j) : nodeAt rs (k + 1) j = nodeAt rs k j := by
  simp [nodeAt, filter_range_succ, h]

/-- The newly constructed node starts with an empty child list. -/
theorem nodeAt_new {rs : List (NodeType × Row)}
    (hoid : ∀ i, i < rs.length → (oidOf rs i).isSome)
    (hdist : ∀ i, i < rs.length → ∀ i', i' < rs.length →
      oidOf rs i = oidOf rs i' → i = i')
    (hpar : ∀ i, i < rs.length → parentAttr (tyOf rs i) ≠ none →
      ∃ j, j < i ∧ oidOf rs j = prefOf rs i)
    {k : Nat} (hk : k < rs.length) :
    nodeAt rs (k + 1) k = ⟨tyOf rs k, rowOf rs k, []⟩ := by
  unfold nodeAt
  have hnil : (List.range (k + 1)).filter
      (fun i => decide (prefOf rs i = oidOf rs k)) = [] := by
    rw [List.filter_eq_nil_iff]
    intro a ha
    have hak : a < k + 1 := List.mem_range.mp ha
    simp only [decide_eq_true_eq]
    exact pref_ne_oid hoid hdist hpar hk (by omega)
  rw [hnil]

/-- Processing row k from the state after k rows produces the state after
k+1 rows. -/
theorem buildNode_stAt {rs : List (NodeType × Row)}
    (hoid : ∀ i, i < rs.length → (oidOf rs i).isSome)
    (hdist : ∀ i, i < rs.length → ∀ i', i' < rs.length →
      oidOf rs i = oidOf rs i' → i = i')
    (hpar : ∀ i, i < rs.length → parentAttr (tyOf rs i) ≠ none →
      ∃ j, j < i ∧ oidOf rs j = prefOf rs i)
    {k : Nat} (hk : k < rs.length) :
    buildNode (stAt rs k) (tyOf rs k) (rowOf rs k) = .ok (stAt rs (k + 1)) := by
  obtain ⟨w, hw⟩ := Option.isSome_iff_exists.mp (hoid k hk)
  have hw' : lookupAttr (rowOf rs k) "oid" = some w := hw
  have hwv : oidV rs k = w := by simp [oidV, hw]
  have hlen : (stAt rs k).built.length = k := by simp [stAt]
  have hmapsucc := stAt_oidMap_succ rs k
  cases hpa : parentAttr (tyOf rs k) with
  | none =>
    have hprefk : prefOf rs k = none := by simp [prefOf, hpa]
    simp only [buildNode, hpa, hw']
    refine congrArg Except.ok ?_
    have hbuilt : (stAt rs k).built ++ [⟨tyOf rs k, rowOf rs k, []⟩]
        = (stAt rs (k + 1)).built := by
      simp only [stAt]
      rw [List.range_succ, List.map_append]
      congr 1
      · apply List.map_congr_left
        intro j hj
        have hjk : j < k := List.mem_range.mp hj
        refine (nodeAt_succ ?_).symm
        obtain ⟨u, hu⟩ := Option.isSome_iff_exists.mp (hoid j (by omega))
        rw [hprefk, hu]
        intro hcon
        cases hcon
      · simp only [List.map_cons, List.map_nil]
        rw [nodeAt_new hoid hdist hpar hk]
    have hmapeq : (w, (stAt rs k).built.length) :: (stAt rs k).oidMap
        = (stAt rs (k + 1)).oidMap := by
      rw [hmapsucc, hlen, hwv]
    rw [hbuilt, hmapeq]
  | some a =>
    have hpane : parentAttr (tyOf rs k) ≠ none := by rw [hpa]; simp
    obtain ⟨j0, hj0, hoidj0⟩ := hpar k hk hpane
    obtain ⟨v, hv⟩ := Option.isSome_iff_exists.mp (hoid j0 (by omega))
    have hprefk : prefOf rs k = some v := by rw [← hoidj0, hv]
    have hpref' : lookupAttr (rowOf rs k) a = some v := by
      have hx : prefOf rs k = lookupAttr (rowOf rs k) a := by simp [prefOf, hpa]
      rw [← hx, hprefk]
    have hvj0 : oidOf rs j0 = some v := hv
    have hlk := @lookup_stAt rs k j0 v hoid hdist (by omega) hj0 hvj0
    have hget : (stAt rs k).built.get? j0 = some (nodeAt rs k j0) := by
      simp [stAt, List.get?_eq_getElem?, hj0]
    simp only [buildNode, hpa, hpref', hlk, hget, hw']
    refine congrArg Except.ok ?_
    have hbuilt : ((stAt rs k).built.set j0
          ⟨(nodeAt rs k j0).ty, (nodeAt rs k j0).row,
           (nodeAt rs k j0).children ++ [(stAt rs k).built.length]⟩)
          ++ [⟨tyOf rs k, rowOf rs k, []⟩]
        = (stAt rs (k + 1)).built := by
      rw [hlen]
      apply List.ext_getElem
      · simp [stAt]
      · intro m h1 h2
        have hm : m < k + 1 := by
          simpa [stAt] using h2
        have hrhs : (stAt rs (k + 1)).built[m] = nodeAt rs (k + 1) m := by
          simp [stAt]
        rw [hrhs]
        by_cases hmk : m < k
        · rw [List.getElem_append_left (by simpa [stAt] using hmk)]
          by_cases hmj : m = j0
          · subst hmj
            rw [List.getElem_set_self (by simpa [stAt] using hmk)]
            have hupd : nodeAt rs (k + 1) m
                = ⟨(nodeAt rs k m).ty, (nodeAt rs k m).row,
                   (nodeAt rs k m).children ++ [k]⟩ := by
              simp only [nodeAt]
              rw [filter_range_succ]
              have hpk : decide (prefOf rs k = oidOf rs m) = true := by
                simp [hprefk, hvj0]
              rw [hpk]
              simp
            rw [hupd]
          · rw [List.getElem_set_ne (fun h => hmj h.symm)]
            have hmk2 : m < (stAt rs k).built.length := by rw [hlen]; exact hmk
            have hgl : (stAt rs k).built[m] = nodeAt rs k m := by
              simp [stAt]
            rw [hgl]
            refine (nodeAt_succ ?_).symm
            intro hcon
            have hmeq : oidOf rs m = oidOf rs j0 := by
              rw [← hcon, hprefk, hvj0]
            exact hmj (hdist m (by omega) j0 (by omega) hmeq)
        · have hmk' : m = k := by omega
          subst hmk'
          rw [List.getElem_append_right (by simp [stAt])]
          rw [nodeAt_new hoid hdist hpar hk]
          simp [stAt]
    have hmapeq : (w, (stAt rs k).built.length) :: (stAt rs k).oidMap
        = (stAt rs (k + 1)).oidMap := by
      rw [hmapsucc, hlen, hwv]
    rw [hbuilt, hmapeq]

/-- The constructed node list after k rows, indexed below k. -/
theorem stAt_getD {rs : List (NodeType × Row)} {k p : Nat} (hp : p < k) :
    (stAt rs k).built.getD p dfltNode = nodeAt rs k p := by
  simp [stAt, List.getD_eq_getElem?_getD, List.getElem?_map,
    List.getElem?_range, hp]

/-- Assembling the remaining rows from the state after k rows reaches the
final state. -/
theorem assembleFrom_stAt {rs : List (NodeType × Row)}
    (hoid : ∀ i, i < rs.length → (oidOf rs i).isSome)
    (hdist : ∀ i, i < rs.length → ∀ i', i' < rs.length →
      oidOf rs i = oidOf rs i' → i = i')
    (hpar : ∀ i, i < rs.length → parentAttr (tyOf rs i) ≠ none →
      ∃ j, j < i ∧ oidOf rs j = prefOf rs i) :
    ∀ d k, d = rs.length - k → k ≤ rs.length →
      assembleFrom (stAt rs k) (rs.drop k) = .ok (stAt rs rs.length) := by
  intro d
  induction d with
  | zero =>
    intro k hd hk
    have hkn : k = rs.length := by omega
    subst hkn
    rw [List.drop_length]
    rfl
  | succ d ih =>
    intro k hd hk
    have hklt : k < rs.length := by omega
    have hdrop : rs.drop k = rs[k] :: rs.drop (k + 1) :=
      List.drop_eq_getElem_cons hklt
    have hrk : rs[k] = (tyOf rs k, rowOf rs k) := by
      have h1 : rs.getD k dfltEntry = rs[k] := List.getD_eq_getElem rs dfltEntry hklt
      rw [tyOf, rowOf, h1]
    rw [hdrop, hrk]
    show (match buildNode (stAt rs k) (tyOf rs k) (rowOf rs k) with
      | Except.error e => Except.error e
      | Except.ok st' => assembleFrom st' (rs.drop (k + 1))) = _
    rw [buildNode_stAt hoid hdist hpar hklt]
    exact ih (k + 1) (by omega) (by omega)

/-- C1: for every document in which each non-root row's parent-reference
attribute names a row appearing earlier in table/row order (all rows
carrying distinct oids), tree assembly succeeds; every constructed node is
appended exactly once to the child list of the node its parent reference
names and to no other child list, and each child list is exactly the
in-order filter of the encountered rows referencing that node, so child
order preserves row-encounter order. -/
theorem c1_tree_assembly (doc : Document)
    (hoid : ∀ i, i < (flattenDoc doc).length →
      (oidOf (flattenDoc doc) i).isSome)
    (hdist : ∀ i, i < (flattenDoc doc).length →
      ∀ i', i' < (flattenDoc doc).length →
        oidOf (flattenDoc doc) i = oidOf (flattenDoc doc) i' → i = i')
    (hpar : ∀ i, i < (flattenDoc doc).length →
      parentAttr (tyOf (flattenDoc doc) i) ≠ none →
        ∃ j, j < i ∧ oidOf (flattenDoc doc) j = prefOf (flattenDoc doc) i) :
    ∃ st, readTables doc = .ok st ∧
      st.built.length = (flattenDoc doc).length ∧
      (∀ p, p < (flattenDoc doc).length →
        (st.built.getD p dfltNode).children
          = (List.range (flattenDoc doc).length).filter
              (fun i => decide (prefOf (flattenDoc doc) i
                = oidOf (flattenDoc doc) p))) ∧
      (∀ i p, i < (flattenDoc doc).length → p < (flattenDoc doc).length →
        oidOf (flattenDoc doc) p = prefOf (flattenDoc doc) i →
          (st.built.getD p dfltNode).children.count i = 1 ∧
          ∀ q, q < (flattenDoc doc).length → q ≠ p →
            i ∉ (st.built.getD q dfltNode).children) := by
  refine ⟨stAt (flattenDoc doc) (flattenDoc doc).length, ?_, ?_, ?_, ?_⟩
  · exact assembleFrom_stAt hoid hdist hpar (flattenDoc doc).length 0
      (by omega) (by omega)
  · simp [stAt]
  · intro p hp
    rw [stAt_getD hp]
    rfl
  · intro i p hi hp heq
    constructor
    · rw [stAt_getD hp]
      show List.count i (List.filter _ _) = 1
      rw [List.count_filter (by simp [heq])]
      exact List.count_eq_one_of_mem (List.nodup_range _) (List.mem_range.mpr hi)
    · intro q hq hqp hmem
      rw [stAt_getD hq] at hmem
      obtain ⟨hmr, hpred⟩ := List.mem_filter.mp hmem
      have hoq : oidOf (flattenDoc doc) q = oidOf (flattenDoc doc) p := by
        have := of_decide_eq_true hpred
        rw [← this, heq]
      exact hqp (hdist q hq p hp hoq)

/-- Witness for C1 on a three-row document: project, safety function under
it, subsystem under that. -/
theorem c1_tree_assembly_witness :
    (∀ i, i < (flattenDoc docSmall).length →
      (oidOf (flattenDoc docSmall) i).isSome) ∧
    (∀ i, i < (flattenDoc docSmall).length →
      ∀ i', i' < (flattenDoc docSmall).length →
        oidOf (flattenDoc docSmall) i = oidOf (flattenDoc docSmall) i' →
          i = i') ∧
    (∀ i, i < (flattenDoc docSmall).length →
      parentAttr (tyOf (flattenDoc docSmall) i) ≠ none →
        ∃ j, j < i ∧
          oidOf (flattenDoc docSmall) j = prefOf (flattenDoc docSmall) i) ∧
    (∃ st, readTables docSmall = .ok st ∧
      st.built.length = (flattenDoc docSmall).length ∧
      (∀ p, p < (flattenDoc docSmall).length →
        (st.built.getD p dfltNode).children
          = (List.range (flattenDoc docSmall).length).filter
              (fun i => decide (prefOf (flattenDoc docSmall) i
                = oidOf (flattenDoc docSmall) p))) ∧
      (∀ i p, i < (flattenDoc docSmall).length →
        p < (flattenDoc docSmall).length →
        oidOf (flattenDoc docSmall) p = prefOf (flattenDoc docSmall) i →
          (st.built.getD p dfltNode).children.count i = 1 ∧
          ∀ q, q < (flattenDoc docSmall).length → q ≠ p →
            i ∉ (st.built.getD q dfltNode).children)) :=
  ⟨by decide, by decide, by decide,
   c1_tree_assembly docSmall (by decide) (by decide) (by decide)⟩

/-- Assembly of a concatenation runs the first part and continues from its
resulting state. -/
theorem assembleFrom_append (st : AsmState) (l1 l2 : List (NodeType × Row)) :
    assembleFrom st (l1 ++ l2)
      = match assembleFrom st l1 with
        | .error e => .error e
        | .ok st' => assembleFrom st' l2 := by
  induction l1 generalizing st with
  | nil => rfl
  | cons hd tl ih =>
    obtain ⟨ty, row⟩ := hd
    simp only [List.cons_append, assembleFrom]
    cases hb : buildNode st ty row with
    | error e => simp
    | ok st' => simpa using ih st'

/-- C6: constructing a node whose parent-reference attribute names an OID
with no constructed node in the mapping at the time of resolution fails the
whole run with UnresolvedParent, and no output is produced from the
partially resolved tree. -/
theorem c6_unresolved_parent (doc : Document) (i : Nat) (st : AsmState)
    (a v : String)
    (hi : i < (flattenDoc doc).length)
    (hpre : assembleFrom ⟨[], []⟩ ((flattenDoc doc).take i) = .ok st)
    (hattr : parentAttr (tyOf (flattenDoc doc) i) = some a)
    (hv : lookupAttr (rowOf (flattenDoc doc) i) a = some v)
    (hmiss : List.lookup v st.oidMap = none) :
    readTables doc = .error .unresolvedParent ∧
    ssmRender doc = .error .unresolvedParent := by
  have hmain : readTables doc = .error .unresolvedParent := by
    show assembleFrom ⟨[], []⟩ (flattenDoc doc) = _
    rw [← List.take_append_drop i (flattenDoc doc), assembleFrom_append, hpre]
    have hdrop : (flattenDoc doc).drop i
        = (flattenDoc doc)[i] :: (flattenDoc doc).drop (i + 1) :=
      List.drop_eq_getElem_cons hi
    have hrk : (flattenDoc doc)[i]
        = (tyOf (flattenDoc doc) i, rowOf (flattenDoc doc) i) := by
      have h1 : (flattenDoc doc).getD i dfltEntry = (flattenDoc doc)[i] :=
        List.getD_eq_getElem (flattenDoc doc) dfltEntry hi
      rw [tyOf, rowOf, h1]
    rw [hdrop, hrk]
    show (match buildNode st (tyOf (flattenDoc doc) i)
        (rowOf (flattenDoc doc) i) with
      | Except.error e => Except.error e
      | Except.ok st' => assembleFrom st' ((flattenDoc doc).drop (i + 1))) = _
    simp only [buildNode, hattr, hv, hmiss]
  refine ⟨hmain, ?_⟩
  rw [ssmRender, hmain]

/-- Witness for C6 on a document whose single safety-function row names a
nonexistent parent OID. -/
theorem c6_unresolved_parent_witness :
    assembleFrom ⟨[], []⟩ ((flattenDoc docOrphan).take 0) = .ok ⟨[], []⟩ ∧
    List.lookup "p0" (AsmState.mk [] []).oidMap = none ∧
    readTables docOrphan = .error .unresolvedParent ∧
    ssmRender docOrphan = .error .unresolvedParent := by
  refine ⟨rfl, rfl, ?_⟩
  have := c6_unresolved_parent docOrphan 0 ⟨[], []⟩ "projectopoid" "p0"
    (by decide) rfl (by decide) (by decide) rfl
  exact this

end Ssm2txt
